import Mathlib

/-!
Verification development for the solver layer of a linear-programming
modelling library (`src/solvers/minilp.rs`, `src/solvers/glpk.rs`,
`src/solvers/gurobi.rs`).

Shallow embedding conventions:
* Rust `f64` coefficients and values are modelled by `ℚ`; every numeric value
  in the properties below is exactly representable, and the spec guarantees
  only exactness of coefficient aggregation.
* The `±∞` seed values of `VarWithCoeff` are modelled by the extended type
  `XRat` below.
* `HashMap<String, _>` is modelled by an association list keyed by `String`
  with first-insertion order; content equality is what matters.
* Fallible Rust functions returning `Result<_, String>` are modelled with
  `Except`; the minilp adapter errors are given a structured error type
  `MiniLpError` whose constructors correspond one-to-one to the `format!`
  messages of the source.
-/

/-- `dsl::LpExprOp` (the binary operators of the expression tree). -/
inductive LpExprOp where
  | addition
  | subtraction
  | multiplication
deriving DecidableEq, Repr

/-- `dsl::LpContinuous`: a named continuous variable with optional bounds
(absent bound = unbounded in that direction). -/
structure LpContinuous where
  name : String
  lower_bound : Option ℚ
  upper_bound : Option ℚ
deriving DecidableEq, Repr

/-- `dsl::LpExprNode`. The source stores nodes in an arena addressed by
index; the shallow embedding uses the tree reachable from the root index, so
`LpCompExpr`'s child indices become child subtrees. Per the data model of the
spec the node shapes reachable here are literal, variable reference and
binary operation. -/
inductive LpExprNode where
  | litVal (v : ℚ)
  | consCont (v : LpContinuous)
  | lpCompExpr (op : LpExprOp) (lhs rhs : LpExprNode)
deriving DecidableEq, Repr

/-- Extended rationals modelling the `f64` values `NEG_INFINITY`, finite, and
`INFINITY` used for bound seeding and intersection. -/
inductive XRat where
  | negInf
  | val (q : ℚ)
  | posInf
deriving DecidableEq, Repr

/-- `f64::max` restricted to the values that occur in bound intersection. -/
def XRat.fmax : XRat → XRat → XRat
  | .negInf, y => y
  | .posInf, _ => .posInf
  | .val a, .negInf => .val a
  | .val _, .posInf => .posInf
  | .val a, .val b => .val (max a b)

/-- `f64::min` restricted to the values that occur in bound intersection. -/
def XRat.fmin : XRat → XRat → XRat
  | .posInf, y => y
  | .negInf, _ => .negInf
  | .val a, .posInf => .val a
  | .val _, .negInf => .negInf
  | .val a, .val b => .val (min a b)

/-- `VarWithCoeff` from `src/solvers/minilp.rs`. -/
structure VarWithCoeff where
  coefficient : ℚ
  min : XRat
  max : XRat
deriving DecidableEq, Repr

/-- `impl Default for VarWithCoeff`: coefficient `0`, min `NEG_INFINITY`,
max `INFINITY`. -/
def VarWithCoeff.default : VarWithCoeff :=
  { coefficient := 0, min := .negInf, max := .posInf }

/-- `VarList` from `src/solvers/minilp.rs`: `HashMap<String, VarWithCoeff>`,
modelled as an association list in first-insertion order. -/
abbrev VarList := List (String × VarWithCoeff)

/-- The body of `VarList::add` applied to one existing entry: add the
coefficient, then narrow `min` by `max`-ing with the lower bound (when
present) and `max` by `min`-ing with the upper bound (when present). -/
def VarWithCoeff.accum (prev : VarWithCoeff) (var : LpContinuous)
    (coefficient : ℚ) : VarWithCoeff :=
  { coefficient := prev.coefficient + coefficient
    min := match var.lower_bound with
      | some lower => prev.min.fmax (.val lower)
      | none => prev.min
    max := match var.upper_bound with
      | some upper => prev.max.fmin (.val upper)
      | none => prev.max }

/-- `VarList::add`: `self.0.entry(name).or_default()` then accumulate. -/
def VarList.add (l : VarList) (var : LpContinuous) (coefficient : ℚ) :
    VarList :=
  match l with
  | [] => [(var.name, VarWithCoeff.default.accum var coefficient)]
  | (n, e) :: rest =>
    if n = var.name then (n, e.accum var coefficient) :: rest
    else (n, e) :: VarList.add rest var coefficient

/-- Lookup in the association-list model of the `HashMap`. -/
def VarList.lookup (l : VarList) (name : String) : Option VarWithCoeff :=
  match l with
  | [] => none
  | (n, e) :: rest => if n = name then some e else VarList.lookup rest name

/-- Structured counterpart of the `String` errors produced by the minilp
adapter, one constructor per `format!` message. -/
inductive MiniLpError where
  /-- `format!("Non-simplified multiplication: {:?}", ...)` -/
  | nonSimplifiedMultiplication
  /-- `format!("Unsupported expression: {:?}", ...)` -/
  | unsupportedExpression
  /-- `"not properly simplified"` -/
  | notProperlySimplified
  /-- `"missing variable name"` -/
  | missingVariableName
  /-- `"Missing objective"` -/
  | missingObjective
deriving DecidableEq, Repr

/-- Size of an expression tree, used as the termination measure of the
explicit-stack traversal. -/
def LpExprNode.size : LpExprNode → Nat
  | .litVal _ => 1
  | .consCont _ => 1
  | .lpCompExpr _ lhs rhs => lhs.size + rhs.size + 1

/-- The `while let Some((factor, idx)) = idxs.pop()` loop of
`decompose_expression`. The head of the list is the top of the `Vec` stack,
so a Rust `push(a); push(b)` becomes `b :: a :: rest` here. `ConsCont` adds
the factor, `Multiplication` requires a literal left child, `Addition` and
`Subtraction` push both children (the right one negated for subtraction),
and the catch-all arm — reached only by `LitVal` in this node model —
returns the unsupported-expression error. -/
def decomposeStack : List (ℚ × LpExprNode) → VarList →
    Except MiniLpError VarList
  | [], decomposed => .ok decomposed
  | (factor, e) :: rest, decomposed =>
    match e with
    | .consCont var => decomposeStack rest (decomposed.add var factor)
    | .lpCompExpr .multiplication lhs rhs =>
      match lhs with
      | .litVal lit => decomposeStack ((factor * lit, rhs) :: rest) decomposed
      | .consCont _ => .error .nonSimplifiedMultiplication
      | .lpCompExpr _ _ _ => .error .nonSimplifiedMultiplication
    | .lpCompExpr .addition lhs rhs =>
      decomposeStack ((factor, rhs) :: (factor, lhs) :: rest) decomposed
    | .lpCompExpr .subtraction lhs rhs =>
      decomposeStack ((-factor, rhs) :: (factor, lhs) :: rest) decomposed
    | .litVal _ => .error .unsupportedExpression
termination_by stack _ => (stack.map (fun p => p.2.size)).sum
decreasing_by
  all_goals simp [LpExprNode.size]
  all_goals omega

/-- Modelled from the spec: `LpExpression::simplify` lives in the `dsl`
module, which is not under `src/`. Section 4.2 of the spec requires a
post-order rewrite after which (1) every `Multiply` node's left child is a
`Literal` (normalization moves a literal right operand to the left) and
(3) literal-literal arithmetic is folded to a single `Literal`; a product of
two non-literal subtrees is an unsupported nonlinear term and is left for
the decomposer to reject. -/
def simplifyNode (op : LpExprOp) (l r : LpExprNode) : LpExprNode :=
  match op, l, r with
  | .addition, .litVal a, .litVal b => .litVal (a + b)
  | .subtraction, .litVal a, .litVal b => .litVal (a - b)
  | .multiplication, .litVal a, .litVal b => .litVal (a * b)
  | .multiplication, l, .litVal b =>
    .lpCompExpr .multiplication (.litVal b) l
  | op, l, r => .lpCompExpr op l r

/-- Modelled from the spec: the post-order traversal of the simplifier —
rewrite both children, then rewrite the node via `simplifyNode`. -/
def simplify : LpExprNode → LpExprNode
  | .litVal v => .litVal v
  | .consCont v => .consCont v
  | .lpCompExpr op lhs rhs => simplifyNode op (simplify lhs) (simplify rhs)

/-- `decompose_expression`: simplify, then run the explicit-stack traversal
starting from `vec![(1., root)]` and an empty `VarList`. -/
def decompose_expression (expr : LpExprNode) : Except MiniLpError VarList :=
  decomposeStack [(1, simplify expr)] []

/-- The variable `a` of `test_decompose`, built by `LpContinuous::new`
(no bounds). -/
def varA : LpContinuous := { name := "a", lower_bound := none, upper_bound := none }

/-- The variable `b` of `test_decompose` (no bounds). -/
def varB : LpContinuous := { name := "b", lower_bound := none, upper_bound := none }

/-- The expression `4·(3a − 2b + a)·1 + b` of the spec's decomposition
property, as the tree `((4 * ((3*a − 2*b) + a)) * 1) + b`. -/
def exprC1 : LpExprNode :=
  .lpCompExpr .addition
    (.lpCompExpr .multiplication
      (.lpCompExpr .multiplication
        (.litVal 4)
        (.lpCompExpr .addition
          (.lpCompExpr .subtraction
            (.lpCompExpr .multiplication (.litVal 3) (.consCont varA))
            (.lpCompExpr .multiplication (.litVal 2) (.consCont varB)))
          (.consCont varA)))
      (.litVal 1))
    (.consCont varB)

instance {ε α : Type} [DecidableEq ε] [DecidableEq α] :
    DecidableEq (Except ε α) := fun a b =>
  match a, b with
  | .ok x, .ok y =>
    if h : x = y then .isTrue (by rw [h]) else .isFalse (by simp [h])
  | .error e, .error f =>
    if h : e = f then .isTrue (by rw [h]) else .isFalse (by simp [h])
  | .ok _, .error _ => .isFalse (by simp)
  | .error _, .ok _ => .isFalse (by simp)

/-- `solvers::Status`, the unified status model. -/
inductive Status where
  | optimal
  | subOptimal
  | infeasible
  | unbounded
  | notSolved
deriving DecidableEq, Repr

/-- `solvers::Solution`: unified result of a solve, status plus the
name-keyed value mapping (`HashMap<String, f64>` as an association list).
The optional read-only reference to the originating problem carried by the
source type plays no role in the verified properties and is omitted. -/
structure Solution where
  status : Status
  results : List (String × ℚ)
deriving DecidableEq, Repr

/-- `dsl::LpObjective`. -/
inductive LpObjective where
  | maximize
  | minimize
deriving DecidableEq, Repr

/-- `minilp::OptimizationDirection`. -/
inductive OptimizationDirection where
  | maximize
  | minimize
deriving DecidableEq, Repr

/-- `direction_to_minilp`. -/
def direction_to_minilp : LpObjective → OptimizationDirection
  | .maximize => .maximize
  | .minimize => .minimize

/-- `dsl::Constraint`, the comparison operator of a constraint. -/
inductive Constraint where
  | greaterOrEqual
  | lessOrEqual
  | equal
deriving DecidableEq, Repr

/-- `minilp::ComparisonOp`. -/
inductive ComparisonOp where
  | ge
  | le
  | eq
deriving DecidableEq, Repr

/-- `comparison_to_minilp`. -/
def comparison_to_minilp : Constraint → ComparisonOp
  | .greaterOrEqual => .ge
  | .lessOrEqual => .le
  | .equal => .eq

/-- `dsl::LpConstraint(expr, op, constant_arena)`; `constant_arena` models
the tree rooted at `get_root_expr_ref()` of the constant arena. -/
structure LpConstraint where
  expr : LpExprNode
  op : Constraint
  constant_arena : LpExprNode
deriving DecidableEq, Repr

/-- `dsl::LpProblem` (the fields the solver layer reads). -/
structure LpProblem where
  objective_type : LpObjective
  obj_expr_arena : Option LpExprNode
  constraints : List LpConstraint
deriving DecidableEq, Repr

/-- `minilp::Problem`: direction, the variables in creation order (objective
coefficient and bounds), and the constraints in insertion order. A variable
is its index into `vars`. -/
structure MinilpProblem where
  direction : OptimizationDirection
  vars : List (ℚ × XRat × XRat)
  constraints : List (List (Nat × ℚ) × ComparisonOp × ℚ)
deriving DecidableEq, Repr

/-- `minilp::Problem::new`. -/
def MinilpProblem.new (direction : OptimizationDirection) : MinilpProblem :=
  { direction := direction, vars := [], constraints := [] }

/-- `minilp::Problem::add_var`: returns the fresh variable, which is the
next index in creation order. -/
def MinilpProblem.add_var (pb : MinilpProblem) (obj_coeff : ℚ)
    (bounds : XRat × XRat) : MinilpProblem × Nat :=
  ({ pb with vars := pb.vars ++ [(obj_coeff, bounds)] }, pb.vars.length)

/-- `minilp::Problem::add_constraint`. -/
def MinilpProblem.add_constraint (pb : MinilpProblem) (expr : List (Nat × ℚ))
    (op : ComparisonOp) (rhs : ℚ) : MinilpProblem :=
  { pb with constraints := pb.constraints ++ [(expr, op, rhs)] }

/-- The `for (name, coefficient) in expr_variables.0` loop of
`add_constraint_to_minilp`: look each decomposed variable up in the
name-to-backend-variable map, registering unseen names as fresh backend
variables with objective coefficient `0` and unbounded range, and extend
the backend linear expression with `(variable, coefficient)`. -/
def registerVars : List (String × VarWithCoeff) → List (String × Nat) →
    MinilpProblem → List (Nat × ℚ) →
    List (String × Nat) × MinilpProblem × List (Nat × ℚ)
  | [], varMap, pb, expr => (varMap, pb, expr)
  | (name, coeff) :: rest, varMap, pb, expr =>
    match varMap.lookup name with
    | some var => registerVars rest varMap pb (expr ++ [(var, coeff.coefficient)])
    | none =>
      let (pb, var) := pb.add_var 0 (.negInf, .posInf)
      registerVars rest (varMap ++ [(name, var)]) pb
        (expr ++ [(var, coeff.coefficient)])

/-- `add_constraint_to_minilp`: the right-hand constant arena must already
be a single `LitVal` (else the `"not properly simplified"` error), then the
left-hand expression is decomposed and its variables registered, and the
comparator and constant are added to the backend problem. -/
def add_constraint_to_minilp (constraint : LpConstraint)
    (varMap : List (String × Nat)) (pb : MinilpProblem) :
    Except MiniLpError (List (String × Nat) × MinilpProblem) :=
  match constraint.constant_arena with
  | .litVal constant =>
    match decompose_expression constraint.expr with
    | .ok expr_variables =>
      let (varMap, pb, expr) := registerVars expr_variables varMap pb []
      .ok (varMap, pb.add_constraint expr
        (comparison_to_minilp constraint.op) constant)
    | .error e => .error e
  | _ => .error .notProperlySimplified

/-- The variable-seeding loop of `add_objective_to_minilp`: one backend
variable per decomposed objective entry, carrying its accumulated
coefficient and intersected bounds. -/
def addObjVars : List (String × VarWithCoeff) → MinilpProblem →
    List (String × Nat) → List (String × Nat) × MinilpProblem
  | [], pb, acc => (acc, pb)
  | (name, v) :: rest, pb, acc =>
    let (pb, var) := pb.add_var v.coefficient (v.min, v.max)
    addObjVars rest pb (acc ++ [(name, var)])

/-- `add_objective_to_minilp`: decompose the objective and seed the backend
variables, returning the name-to-backend-variable map. -/
def add_objective_to_minilp (objective : LpExprNode) (pb : MinilpProblem) :
    Except MiniLpError (List (String × Nat) × MinilpProblem) :=
  match decompose_expression objective with
  | .ok vars => .ok (addObjVars vars pb [])
  | .error e => .error e

/-- The constraint loop of `problem_to_minilp`. -/
def foldConstraints : List LpConstraint → List (String × Nat) →
    MinilpProblem → Except MiniLpError (List (String × Nat) × MinilpProblem)
  | [], varMap, pb => .ok (varMap, pb)
  | c :: rest, varMap, pb =>
    match add_constraint_to_minilp c varMap pb with
    | .ok (varMap, pb) => foldConstraints rest varMap pb
    | .error e => .error e

/-- The `ordered_vars` construction of `problem_to_minilp`:
`vec![None; len]` then `ordered_vars[var.idx()] = Some(name)` for every
entry (an out-of-range index, which would panic in the source, leaves the
vector unchanged in this model — `problem_to_minilp` only produces
in-range indices). -/
def orderedVars (varMap : List (String × Nat)) (len : Nat) :
    List (Option String) :=
  varMap.foldl (fun acc p => acc.set p.2 (some p.1))
    (List.replicate len none)

/-- `problem_to_minilp`. -/
def problem_to_minilp (pb : LpProblem) :
    Except MiniLpError (MinilpProblem × List (Option String)) :=
  let minilp_pb := MinilpProblem.new (direction_to_minilp pb.objective_type)
  match pb.obj_expr_arena with
  | none => .error .missingObjective
  | some objective =>
    match add_objective_to_minilp objective minilp_pb with
    | .ok (minilp_variables, minilp_pb) =>
      match foldConstraints pb.constraints minilp_variables minilp_pb with
      | .ok (minilp_variables, minilp_pb) =>
        .ok (minilp_pb, orderedVars minilp_variables minilp_pb.vars.length)
      | .error e => .error e
    | .error e => .error e

/-- `minilp::Error`, the native outcome signals of the backend. -/
inductive MinilpNativeError where
  | unbounded
  | infeasible
deriving DecidableEq, Repr

/-- `minilp::Solution` as iterated by `solution_from_minilp`: the pairs
`(variable index, value)` yielded by `solution.iter()`. -/
abbrev MinilpAssignment := List (Nat × ℚ)

/-- The `solution.iter().map(...).collect::<Option<HashMap>>()` of
`solution_from_minilp`: for each `(var, value)` take the name stored at the
variable's index out of the list (`std::mem::take` leaves `None` behind, so
a repeated index fails); any missing name collapses the whole collection to
`none`. An out-of-range index, which would panic in the source, is modelled
as a missing name. -/
def collectNames : MinilpAssignment → List (Option String) →
    Option (List (String × ℚ))
  | [], _ => some []
  | (idx, value) :: rest, variable_names =>
    match variable_names.getD idx none with
    | some name =>
      (collectNames rest (variable_names.set idx none)).map
        (fun tl => (name, value) :: tl)
    | none => none

/-- `solution_from_minilp`: map the backend's native outcome into the
unified solution model. -/
def solution_from_minilp
    (result : Except MinilpNativeError MinilpAssignment)
    (variable_names : List (Option String)) : Except MiniLpError Solution :=
  match result with
  | .ok solution =>
    match collectNames solution variable_names with
    | some results => .ok ⟨.optimal, results⟩
    | none => .error .missingVariableName
  | .error .unbounded => .ok ⟨.unbounded, []⟩
  | .error .infeasible => .ok ⟨.infeasible, []⟩

/-- `<MiniLpSolver as SolverTrait>::run`, parameterized by the native solve
routine of the external `minilp` crate (`minilp_pb.solve()`), which is an
external collaborator out of this specification's scope. -/
def miniLpSolver_run
    (solve : MinilpProblem → Except MinilpNativeError MinilpAssignment)
    (problem : LpProblem) : Except MiniLpError Solution :=
  match problem_to_minilp problem with
  | .ok (minilp_pb, variable_names) =>
    solution_from_minilp (solve minilp_pb) variable_names
  | .error e => .error e

/-- The status-token match of `GlpkSolver::read_specific_solution`
(`match &status_line[12..]`), written as the same first-match cascade. -/
def glpk_status_token (t : String) : Except String Status :=
  if t = "INTEGER OPTIMAL" then .ok .optimal
  else if t = "OPTIMAL" then .ok .optimal
  else if t = "INFEASIBLE (FINAL)" then .ok .infeasible
  else if t = "INTEGER EMPTY" then .ok .infeasible
  else if t = "UNDEFINED" then .ok .notSolved
  else if t = "INTEGER UNDEFINED" then .ok .unbounded
  else if t = "UNBOUNDED" then .ok .unbounded
  else .error "Incorrect solution format: Unknown solution status"

/-- The status extraction `&status_line[12..]` of
`GlpkSolver::read_specific_solution`. Rust slices the line at byte offset
12 and panics when the line is shorter; the status lines of the grammar are
ASCII, so bytes coincide with characters and the slice is `String.drop 12`.
`none` models the panic; `some` carries the non-panicking outcome. -/
def glpk_status_of_line (line : String) : Option (Except String Status) :=
  if 12 ≤ line.length then some (glpk_status_token (line.drop 12)) else none

/-- Rust `str::contains` for a literal pattern: substring occurrence. -/
def strContains (s pat : String) : Bool := decide (pat.data <:+: s.data)

/-- Rust `str::split_whitespace`: split on whitespace and drop the empty
pieces produced by runs of whitespace. -/
def splitWs (s : String) : List String :=
  (s.split fun c => c.isWhitespace).filter (fun piece => piece ≠ "")

/-- `HashMap::insert` on the association-list model: overwrite the existing
key or append a fresh entry. -/
def insertAssoc : List (String × ℚ) → String → ℚ → List (String × ℚ)
  | [], k, v => [(k, v)]
  | (k0, v0) :: rest, k, v =>
    if k0 = k then (k0, v) :: rest else (k0, v0) :: insertAssoc rest k v

/-- The `for line in file.lines()` loop of
`GurobiSolver::read_specific_solution`, parameterized by the numeric parser
`parseVal` modelling `str::parse::<f32>` (an external grammar). A line whose
first character is `#` is a comment and skipped; otherwise the line must
split into exactly two whitespace tokens `name value`; a failed numeric
parse surfaces the parser's message (`"invalid float literal"` stands for
`e.to_string()`). -/
def gurobi_parse_lines (parseVal : String → Option ℚ) :
    List String → List (String × ℚ) → Except String (List (String × ℚ))
  | [], vars_value => .ok vars_value
  | l :: rest, vars_value =>
    if l.data.head? = some '#' then gurobi_parse_lines parseVal rest vars_value
    else
      match splitWs l with
      | [name, value] =>
        match parseVal value with
        | some n => gurobi_parse_lines parseVal rest (insertAssoc vars_value name n)
        | none => .error "invalid float literal"
      | _ => .error "Incorrect solution format"

/-- `GurobiSolver::read_specific_solution` over the file's lines. The first
line is the header, read and discarded: `buffer.split(" ").next()` always
yields a first token (even on an empty buffer), so the header check cannot
fail and the remaining lines are parsed. On success the parser always
assigns `Status::Optimal` (the `TODO/FIX: always optimal if no err...` of
the source). -/
def gurobi_read_specific_solution (parseVal : String → Option ℚ)
    (fileLines : List String) : Except String Solution :=
  (gurobi_parse_lines parseVal fileLines.tail []).map
    (fun vars_value => ⟨Status.optimal, vars_value⟩)

/-- The stdout inspection of `<GurobiSolver as SolverTrait>::run`:
`let mut status = Status::SubOptimal;` then the two `contains` checks in
order. -/
def gurobi_status_from_stdout (stdout : String) : Status :=
  if strContains stdout "Optimal solution found" then .optimal
  else if strContains stdout "infesible" then .infeasible
  else .subOptimal

/-- The success branch of `<GurobiSolver as SolverTrait>::run`:
`self.read_solution(..).map(|solution| Solution { status, ..solution })` —
the parsed solution is kept but its status is replaced by the
stdout-derived one. -/
def gurobi_run_on_success (stdout : String)
    (parseResult : Except String Solution) : Except String Solution :=
  parseResult.map
    (fun solution => { solution with status := gurobi_status_from_stdout stdout })

/-- `std::process::Output` as consumed by the two external runs:
`r.status.success()`, `r.status.to_string()`, and the captured streams. -/
structure ProcOutput where
  success : Bool
  statusStr : String
  stdout : String
  stderr : String

/-- `<GlpkSolver as SolverTrait>::run` as a function of its external
effects: the model-file write (`problem.write_lp`), the process invocation
(`none` = spawn failure), the outcome of reading the temporary solution
file (`self.read_solution(..)`), and whether `fs::remove_file` would
succeed. Returns the call's result together with the number of times
removal of the model file was attempted; `let _ = fs::remove_file(..)`
discards the removal outcome, so `removeOk` is ignored. -/
def glpk_run_model (writeResult : Except String Unit)
    (procResult : Option ProcOutput) (parseResult : Except String Solution)
    (removeOk : Bool) : Except String Solution × Nat :=
  match writeResult with
  | .ok _ =>
    let result := match procResult with
      | some r => if r.success then parseResult else .error r.statusStr
      | none => .error "Error running the Glpk solver"
    let _ := removeOk
    (result, 1)
  | .error e => (.error e, 0)

/-- `<GurobiSolver as SolverTrait>::run` as a function of its external
effects, in the shape of `glpk_run_model`; a successful process leads to
the stdout-status override of `gurobi_run_on_success`, a failed one to the
formatted error carrying the captured streams. -/
def gurobi_run_model (command_name : String) (writeResult : Except String Unit)
    (procResult : Option ProcOutput) (parseResult : Except String Solution)
    (removeOk : Bool) : Except String Solution × Nat :=
  match writeResult with
  | .ok _ =>
    let result := match procResult with
      | some r =>
        if r.success then gurobi_run_on_success r.stdout parseResult
        else .error (command_name ++ " exited with " ++ r.statusStr ++
          "\n\nSTDOUT:\n" ++ r.stdout ++ "\n\nSTDERR:\n" ++ r.stderr ++ "\n\n")
      | none => .error "Error running the Gurobi solver"
    let _ := removeOk
    (result, 1)
  | .error e => (.error e, 0)

/-- One occurrence of a variable during decomposition, as consumed by
`VarList::add`: its factor and the optional bounds attached to the
occurrence. -/
def occVar (name : String) (o : ℚ × Option ℚ × Option ℚ) : LpContinuous :=
  { name := name, lower_bound := o.2.1, upper_bound := o.2.2 }

/-- Feed a sequence of occurrences of one variable to `VarList::add`, the
shape in which the decomposer calls it (`decomposed.add(var, factor)` once
per occurrence). -/
def addOccurrences (name : String) (l : VarList)
    (occs : List (ℚ × Option ℚ × Option ℚ)) : VarList :=
  occs.foldl (fun acc o => acc.add (occVar name o) o.1) l

/-- The canonical form of `exprC1` produced by the modelled simplifier:
literal folding leaves the tree unchanged except that the right literal
factor `· 1` is moved to the left of its multiplication. -/
theorem simplify_exprC1 : simplify exprC1 =
      .lpCompExpr .addition
        (.lpCompExpr .multiplication (.litVal 1)
          (.lpCompExpr .multiplication (.litVal 4)
            (.lpCompExpr .addition
              (.lpCompExpr .subtraction
                (.lpCompExpr .multiplication (.litVal 3) (.consCont varA))
                (.lpCompExpr .multiplication (.litVal 2) (.consCont varB)))
              (.consCont varA))))
        (.consCont varB) := by decide

/-- C1: decomposing the expression `4·(3a − 2b + a)·1 + b` yields exactly
the variable aggregate `a → 16`, `b → −7` (4·3 + 4·1 = 16 and
4·(−2) + 1 = −7): each variable's accumulated coefficient is the sum of
the literal factors applied to its occurrences across the tree, and no
other variable appears. -/
theorem claim_C1_decompose_example :
    decompose_expression exprC1 =
      .ok [("b", ⟨-7, .negInf, .posInf⟩), ("a", ⟨16, .negInf, .posInf⟩)] := by
  norm_num [decompose_expression, simplify_exprC1, decomposeStack,
    VarList.add, VarWithCoeff.accum, VarWithCoeff.default, varA, varB,
    XRat.fmax, XRat.fmin]
  decide

/-- C2 counterexample: a `Literal` node reached by the decomposition
traversal does not accumulate into any residual-constant total — it hits
the catch-all arm and decomposition fails with the unsupported-expression
error. -/
theorem claim_C2_counterexample :
    decompose_expression (.litVal 5) = .error .unsupportedExpression := by
  simp [decompose_expression, simplify, decomposeStack]

/-- C2 amended: during decomposition a `Literal` node encountered on the
work stack makes the traversal stop immediately with the
unsupported-expression error, whatever factor, remaining stack and
aggregate are current; `decompose_expression` keeps no residual-constant
total (its only success output is the variable table), and callers needing
a pure-constant side read the constraint's constant expression directly
(`add_constraint_to_minilp`). -/
theorem claim_C2_literal_is_unsupported (factor c : ℚ)
    (rest : List (ℚ × LpExprNode)) (acc : VarList) :
    decomposeStack ((factor, .litVal c) :: rest) acc =
      .error .unsupportedExpression := by
  simp [decomposeStack]

/-- C4: during decomposition, a `Multiply` node whose left child is the
literal `c` pushes `(factor·c, rhs)` onto the work stack and the traversal
continues; a `Multiply` node whose left child is not a literal makes
decomposition fail with the non-simplified-multiplication error instead of
producing any aggregate. -/
theorem claim_C4_multiply_cases (factor : ℚ) (lhs rhs : LpExprNode)
    (rest : List (ℚ × LpExprNode)) (acc : VarList) :
    (∀ c : ℚ, lhs = .litVal c →
      decomposeStack ((factor, .lpCompExpr .multiplication lhs rhs) :: rest) acc =
        decomposeStack ((factor * c, rhs) :: rest) acc) ∧
    ((∀ c : ℚ, lhs ≠ .litVal c) →
      decomposeStack ((factor, .lpCompExpr .multiplication lhs rhs) :: rest) acc =
        .error .nonSimplifiedMultiplication) := by
  constructor
  · intro c hc
    subst hc
    simp [decomposeStack]
  · intro h
    cases lhs with
    | litVal v => exact absurd rfl (h v)
    | consCont v => simp [decomposeStack]
    | lpCompExpr op l r => simp [decomposeStack]

/-- Witness for C4: with factor 2 the node `2 · (3 · a)` continues as
`(6, a)`, and the nonlinear node `2 · (a · b)` with a non-literal left
child fails. -/
theorem claim_C4_witness :
    decomposeStack [((2:ℚ), .lpCompExpr .multiplication (.litVal 3) (.consCont varA))] [] =
      decomposeStack [((6:ℚ), .consCont varA)] [] ∧
    decomposeStack [((2:ℚ), .lpCompExpr .multiplication
        (.lpCompExpr .multiplication (.consCont varA) (.consCont varB)) (.consCont varB))] [] =
      .error .nonSimplifiedMultiplication := by
  constructor
  · have h := (claim_C4_multiply_cases 2 (.litVal 3) (.consCont varA) [] []).1 3 rfl
    have h6 : (2:ℚ) * 3 = 6 := by norm_num
    rwa [h6] at h
  · exact (claim_C4_multiply_cases 2
      (.lpCompExpr .multiplication (.consCont varA) (.consCont varB))
      (.consCont varB) [] []).2 (fun c => by simp)

/-- `VarList::add` stores, under the added variable's name, the previous
entry (or `Default::default()` when the name is new) accumulated with this
occurrence. -/
theorem VarList.lookup_add_self (l : VarList) (var : LpContinuous) (c : ℚ) :
    (l.add var c).lookup var.name =
      some (match l.lookup var.name with
        | some e => e.accum var c
        | none => VarWithCoeff.default.accum var c) := by
  induction l with
  | nil => simp [VarList.add, VarList.lookup]
  | cons hd tl ih =>
    obtain ⟨n, e⟩ := hd
    by_cases hn : n = var.name
    · subst hn
      simp [VarList.add, VarList.lookup]
    · simp [VarList.add, VarList.lookup, hn, ih]

/-- Folding further occurrences of one variable over `VarList::add`
accumulates them all into the entry already present for that name. -/
theorem VarList.lookup_addOccurrences (name : String)
    (occs : List (ℚ × Option ℚ × Option ℚ)) :
    ∀ (l : VarList) (e : VarWithCoeff), l.lookup name = some e →
      (addOccurrences name l occs).lookup name =
        some (occs.foldl (fun e o => e.accum (occVar name o) o.1) e) := by
  induction occs with
  | nil => intro l e he; simpa [addOccurrences] using he
  | cons o rest ih =>
    intro l e he
    have hstep : (l.add (occVar name o) o.1).lookup name =
        some (e.accum (occVar name o) o.1) := by
      have h := VarList.lookup_add_self l (occVar name o) o.1
      simp only [occVar] at h ⊢
      rw [h, he]
    have := ih (l.add (occVar name o) o.1) (e.accum (occVar name o) o.1) hstep
    simpa [addOccurrences] using this

/-- Componentwise description of accumulating a run of occurrences into one
entry: the coefficient gains the sum of the factors, the `min` field is
`fmax`-folded over the lower bounds present, the `max` field is
`fmin`-folded over the upper bounds present. -/
theorem VarWithCoeff.foldl_accum (name : String)
    (occs : List (ℚ × Option ℚ × Option ℚ)) :
    ∀ e : VarWithCoeff,
      occs.foldl (fun e o => e.accum (occVar name o) o.1) e =
        ⟨e.coefficient + (occs.map (fun o => o.1)).sum,
         occs.foldl (fun m o => match o.2.1 with
           | some lower => m.fmax (.val lower)
           | none => m) e.min,
         occs.foldl (fun m o => match o.2.2 with
           | some upper => m.fmin (.val upper)
           | none => m) e.max⟩ := by
  induction occs with
  | nil => intro e; simp
  | cons o rest ih =>
    intro e
    rw [List.foldl_cons, ih]
    simp only [VarWithCoeff.accum, occVar, List.map_cons, List.sum_cons,
      List.foldl_cons]
    congr 1
    ring

/-- C3: for a variable fed to the aggregate once per occurrence, the entry
is seeded with coefficient `0` and bounds `(−∞, +∞)` and every occurrence
narrows it: the final `min` field is the `max`-fold of the lower bounds
present, the final `max` field is the `min`-fold of the upper bounds
present, and the coefficient is the sum of the factors — the bound is the
intersection of all bounds attached to the occurrences. -/
theorem claim_C3_bound_intersection (name : String)
    (occs : List (ℚ × Option ℚ × Option ℚ)) (h : occs ≠ []) :
    (addOccurrences name [] occs).lookup name =
      some ⟨(occs.map (fun o => o.1)).sum,
        occs.foldl (fun m o => match o.2.1 with
          | some lower => m.fmax (.val lower)
          | none => m) XRat.negInf,
        occs.foldl (fun m o => match o.2.2 with
          | some upper => m.fmin (.val upper)
          | none => m) XRat.posInf⟩ := by
  cases occs with
  | nil => exact absurd rfl h
  | cons o rest =>
    have h0 : (VarList.add [] (occVar name o) o.1).lookup name =
        some (VarWithCoeff.default.accum (occVar name o) o.1) := by
      simpa [occVar] using VarList.lookup_add_self [] (occVar name o) o.1
    have h1 := VarList.lookup_addOccurrences name rest _ _ h0
    have h2 : addOccurrences name [] (o :: rest) =
        addOccurrences name (VarList.add [] (occVar name o) o.1) rest := by
      simp [addOccurrences]
    have h3 := VarWithCoeff.foldl_accum name (o :: rest) VarWithCoeff.default
    simp only [List.foldl_cons] at h3
    rw [h2, h1, h3]
    simp [VarWithCoeff.default]

/-- Witness for C3: a variable occurring twice with bounds `[0, 10]` and
`[2, 20]` aggregates to the intersection `[2, 10]` (and coefficient
`1 + 1 = 2`). -/
theorem claim_C3_witness :
    (addOccurrences "x" []
        [((1:ℚ), some (0:ℚ), some (10:ℚ)), ((1:ℚ), some (2:ℚ), some (20:ℚ))]).lookup "x" =
      some ⟨2, .val 2, .val 10⟩ := by
  have h := claim_C3_bound_intersection "x"
    [((1:ℚ), some (0:ℚ), some (10:ℚ)), ((1:ℚ), some (2:ℚ), some (20:ℚ))]
    (by simp)
  rw [h]
  norm_num [XRat.fmax, XRat.fmin]

/-- C5: the in-process (minilp) adapter maps the backend's native outcome
as follows — a concrete assignment whose indices all resolve to names
yields `Optimal` with the name-keyed value mapping, an unbounded signal
yields `Unbounded` with an empty mapping, an infeasible signal yields
`Infeasible` with an empty mapping — and no solution returned through
`solution_from_minilp` ever carries `SubOptimal` or `NotSolved`. -/
theorem claim_C5_minilp_outcome_mapping :
    (∀ (result : Except MinilpNativeError MinilpAssignment)
       (variable_names : List (Option String)) (s : Solution),
      solution_from_minilp result variable_names = .ok s →
        s.status ≠ .subOptimal ∧ s.status ≠ .notSolved) ∧
    (∀ (solution : MinilpAssignment) (variable_names : List (Option String))
       (results : List (String × ℚ)),
      collectNames solution variable_names = some results →
        solution_from_minilp (.ok solution) variable_names =
          .ok ⟨.optimal, results⟩) ∧
    (∀ variable_names : List (Option String),
      solution_from_minilp (.error .unbounded) variable_names =
        .ok ⟨.unbounded, []⟩) ∧
    (∀ variable_names : List (Option String),
      solution_from_minilp (.error .infeasible) variable_names =
        .ok ⟨.infeasible, []⟩) := by
  refine ⟨?_, ?_, fun _ => rfl, fun _ => rfl⟩
  · intro result variable_names s h
    cases result with
    | ok solution =>
      dsimp [solution_from_minilp] at h
      rcases hc : collectNames solution variable_names with _ | results
      · rw [hc] at h
        simp at h
      · rw [hc] at h
        simp only [Except.ok.injEq] at h
        subst h
        exact ⟨by simp, by simp⟩
    | error e =>
      cases e with
      | unbounded =>
        dsimp [solution_from_minilp] at h
        simp only [Except.ok.injEq] at h
        subst h
        exact ⟨by simp, by simp⟩
      | infeasible =>
        dsimp [solution_from_minilp] at h
        simp only [Except.ok.injEq] at h
        subst h
        exact ⟨by simp, by simp⟩
  · intro solution variable_names results h
    simp [solution_from_minilp, h]

/-- Witness for C5: a one-variable assignment with a resolving name list
yields `Optimal` with the mapping, and the two signals map as stated. -/
theorem claim_C5_witness :
    (Status.optimal ≠ Status.subOptimal ∧ Status.optimal ≠ Status.notSolved) ∧
    solution_from_minilp (.ok [((0:ℕ), (3:ℚ))]) [some "x"] =
      .ok ⟨.optimal, [("x", 3)]⟩ ∧
    solution_from_minilp (.error .unbounded) [some "x"] =
      .ok ⟨.unbounded, []⟩ ∧
    solution_from_minilp (.error .infeasible) [some "x"] =
      .ok ⟨.infeasible, []⟩ := by
  refine ⟨?_, ?_, claim_C5_minilp_outcome_mapping.2.2.1 [some "x"],
    claim_C5_minilp_outcome_mapping.2.2.2 [some "x"]⟩
  · exact claim_C5_minilp_outcome_mapping.1 (.ok [((0:ℕ), (3:ℚ))])
      [some "x"] ⟨.optimal, [("x", 3)]⟩ rfl
  · exact claim_C5_minilp_outcome_mapping.2.1 [((0:ℕ), (3:ℚ))] [some "x"]
      [("x", 3)] rfl

/-- C6: the GLPK status-line token is mapped deterministically per the
table — `INTEGER OPTIMAL` and `OPTIMAL` to `Optimal`, `INFEASIBLE (FINAL)`
and `INTEGER EMPTY` to `Infeasible`, `UNDEFINED` to `NotSolved`,
`INTEGER UNDEFINED` and `UNBOUNDED` to `Unbounded` — and any token not in
the table makes parsing fail with the unknown-status format error, never a
default status. -/
theorem claim_C6_glpk_status_table :
    glpk_status_token "INTEGER OPTIMAL" = .ok .optimal ∧
    glpk_status_token "OPTIMAL" = .ok .optimal ∧
    glpk_status_token "INFEASIBLE (FINAL)" = .ok .infeasible ∧
    glpk_status_token "INTEGER EMPTY" = .ok .infeasible ∧
    glpk_status_token "UNDEFINED" = .ok .notSolved ∧
    glpk_status_token "INTEGER UNDEFINED" = .ok .unbounded ∧
    glpk_status_token "UNBOUNDED" = .ok .unbounded ∧
    (∀ t : String,
      t ∉ ["INTEGER OPTIMAL", "OPTIMAL", "INFEASIBLE (FINAL)",
        "INTEGER EMPTY", "UNDEFINED", "INTEGER UNDEFINED", "UNBOUNDED"] →
      glpk_status_token t =
        .error "Incorrect solution format: Unknown solution status") := by
  refine ⟨rfl, rfl, rfl, rfl, rfl, rfl, rfl, ?_⟩
  intro t ht
  simp only [List.mem_cons, List.not_mem_nil, or_false, not_or] at ht
  obtain ⟨h1, h2, h3, h4, h5, h6, h7⟩ := ht
  simp [glpk_status_token, h1, h2, h3, h4, h5, h6, h7]

/-- Witness for C6: the unlisted token `INTEGER SUBOPTIMAL` is a format
error. -/
theorem claim_C6_witness :
    glpk_status_token "INTEGER SUBOPTIMAL" =
      .error "Incorrect solution format: Unknown solution status" :=
  claim_C6_glpk_status_table.2.2.2.2.2.2.2 "INTEGER SUBOPTIMAL" (by decide)

/-- C7: for the Gurobi external-process adapter, whenever the process exits
successfully and the solution file parses, the caller receives the
stdout-derived status — `Optimal` when stdout contains
`"Optimal solution found"`, `Infeasible` when it contains `"infesible"`,
`SubOptimal` when neither phrase occurs — which replaces the parser's
always-`Optimal` status. -/
theorem claim_C7_gurobi_stdout_overrides (command_name : String)
    (parseVal : String → Option ℚ) (fileLines : List String)
    (out : ProcOutput) (removeOk : Bool) (sol : Solution)
    (hsucc : out.success = true)
    (hparse : gurobi_read_specific_solution parseVal fileLines = .ok sol) :
    sol.status = Status.optimal ∧
    (gurobi_run_model command_name (.ok ()) (some out)
        (gurobi_read_specific_solution parseVal fileLines) removeOk).1 =
      .ok { sol with status := gurobi_status_from_stdout out.stdout } ∧
    (strContains out.stdout "Optimal solution found" = true →
      gurobi_status_from_stdout out.stdout = .optimal) ∧
    (strContains out.stdout "Optimal solution found" = false →
      strContains out.stdout "infesible" = true →
      gurobi_status_from_stdout out.stdout = .infeasible) ∧
    (strContains out.stdout "Optimal solution found" = false →
      strContains out.stdout "infesible" = false →
      gurobi_status_from_stdout out.stdout = .subOptimal) := by
  refine ⟨?_, ?_, ?_, ?_, ?_⟩
  · dsimp [gurobi_read_specific_solution] at hparse
    rcases hp : gurobi_parse_lines parseVal fileLines.tail [] with e | vars
    · rw [hp] at hparse
      simp [Except.map] at hparse
    · rw [hp] at hparse
      simp only [Except.map, Except.ok.injEq] at hparse
      rw [← hparse]
  · simp [gurobi_run_model, hsucc, gurobi_run_on_success, hparse, Except.map]
  · intro h
    simp [gurobi_status_from_stdout, h]
  · intro h1 h2
    simp [gurobi_status_from_stdout, h1, h2]
  · intro h1 h2
    simp [gurobi_status_from_stdout, h1, h2]

/-- Witness for C7: a successful process whose stdout is
`"Optimal solution found"` and whose solution file is just a header returns
`Optimal` with an empty mapping. -/
theorem claim_C7_witness :
    (gurobi_run_model "gurobi_cl" (.ok ())
        (some ⟨true, "", "Optimal solution found", ""⟩)
        (gurobi_read_specific_solution (fun _ => none) ["h"]) true).1 =
      .ok ⟨.optimal, []⟩ := by
  have h := claim_C7_gurobi_stdout_overrides "gurobi_cl" (fun _ => none)
    ["h"] ⟨true, "", "Optimal solution found", ""⟩ true ⟨.optimal, []⟩ rfl rfl
  rw [h.2.1, h.2.2.1 (by decide)]

/-- C8: a constraint whose right-hand constant expression is not a single
literal makes `add_constraint_to_minilp` fail with the
not-properly-simplified modeling error — for every variable map and
backend problem state, with no numeric computation involved. -/
theorem claim_C8_constraint_rhs_literal (constraint : LpConstraint)
    (varMap : List (String × Nat)) (pb : MinilpProblem)
    (h : ∀ c : ℚ, constraint.constant_arena ≠ .litVal c) :
    add_constraint_to_minilp constraint varMap pb =
      .error .notProperlySimplified := by
  obtain ⟨expr, op, arena⟩ := constraint
  cases arena with
  | litVal c => exact absurd rfl (h c)
  | consCont v => rfl
  | lpCompExpr op2 l r => rfl

/-- Witness for C8: a constraint whose right-hand side is the bare
variable `b` fails with the modeling error. -/
theorem claim_C8_witness :
    add_constraint_to_minilp ⟨.consCont varA, .equal, .consCont varB⟩ []
      (MinilpProblem.new .minimize) = .error .notProperlySimplified :=
  claim_C8_constraint_rhs_literal ⟨.consCont varA, .equal, .consCont varB⟩ []
    (MinilpProblem.new .minimize) (fun c => by simp)

/-- C9: for both external-process adapters, once the model file has been
written the removal of the temporary model file is attempted on every exit
path — successful parse, nonzero exit code, spawn failure — and exactly
once (a failed write attempts no removal); and the primary result of the
solve is the same whether the removal succeeds or fails. -/
theorem claim_C9_cleanup_guarantee :
    (∀ (procResult : Option ProcOutput) (parseResult : Except String Solution)
       (removeOk : Bool),
      (glpk_run_model (.ok ()) procResult parseResult removeOk).2 = 1) ∧
    (∀ (e : String) (procResult : Option ProcOutput)
       (parseResult : Except String Solution) (removeOk : Bool),
      (glpk_run_model (.error e) procResult parseResult removeOk).2 = 0) ∧
    (∀ (writeResult : Except String Unit) (procResult : Option ProcOutput)
       (parseResult : Except String Solution) (r1 r2 : Bool),
      (glpk_run_model writeResult procResult parseResult r1).1 =
        (glpk_run_model writeResult procResult parseResult r2).1) ∧
    (∀ (command_name : String) (procResult : Option ProcOutput)
       (parseResult : Except String Solution) (removeOk : Bool),
      (gurobi_run_model command_name (.ok ()) procResult parseResult removeOk).2 = 1) ∧
    (∀ (command_name : String) (e : String) (procResult : Option ProcOutput)
       (parseResult : Except String Solution) (removeOk : Bool),
      (gurobi_run_model command_name (.error e) procResult parseResult removeOk).2 = 0) ∧
    (∀ (command_name : String) (writeResult : Except String Unit)
       (procResult : Option ProcOutput) (parseResult : Except String Solution)
       (r1 r2 : Bool),
      (gurobi_run_model command_name writeResult procResult parseResult r1).1 =
        (gurobi_run_model command_name writeResult procResult parseResult r2).1) := by
  refine ⟨fun _ _ _ => rfl, fun _ _ _ _ => rfl, ?_, fun _ _ _ _ => rfl,
    fun _ _ _ _ _ => rfl, ?_⟩
  · intro w p pr r1 r2
    cases w <;> rfl
  · intro c w p pr r1 r2
    cases w <;> rfl

/-- C10: GLPK status extraction slices the status line at offset 12
unconditionally — a status line shorter than 12 panics (modelled `none`)
instead of returning a format-error result, and for a long-enough line the
extraction is total and hands the sliced token to the status table. -/
theorem claim_C10_glpk_short_status_line (line : String) :
    (line.length < 12 → glpk_status_of_line line = none) ∧
    (12 ≤ line.length →
      glpk_status_of_line line = some (glpk_status_token (line.drop 12))) := by
  constructor
  · intro h
    unfold glpk_status_of_line
    rw [if_neg]
    omega
  · intro h
    simp [glpk_status_of_line, h]

/-- Witness for C10: the 9-character line `UNDEFINED` (shorter than the
12-byte offset) panics rather than producing a format error. -/
theorem claim_C10_witness :
    "UNDEFINED".length < 12 ∧ glpk_status_of_line "UNDEFINED" = none :=
  ⟨by decide, (claim_C10_glpk_short_status_line "UNDEFINED").1 (by decide)⟩
